import Mathlib

/-!
Shallow embedding of the uncertainty-analysis engine
(climada/engine/uncertainty.py) and of the discount-rate container
(climada/entity/disc_rates/base.py), with theorems checking the
natural-language specification against the code.

Python floats are modelled as rationals (no float arithmetic is performed by
the verified code paths: values are moved, looked up and compared, never
rounded), Python dicts as insertion-ordered association lists, numpy arrays
as lists, and raised exceptions as `Except` errors.
-/

namespace Climada

/-- A scipy.stats distribution object, reduced to the only capability the
analysed code uses: its quantile function `ppf`. -/
structure Distr where
  ppf : Rat → Rat

instance : Inhabited Distr := ⟨⟨fun x => x⟩⟩

/-- A Python function called with keyword arguments: the names of its
required parameters, its optional parameters with their default values, and
the implementation, applied to the full keyword environment. -/
structure PyFunc (α : Type) where
  required : List String
  defaults : List (String × Rat)
  impl : List (String × Rat) → α

/-- Python exceptions raised by the embedded code paths. -/
inductive PyExc where
  | valueError (msg : String)
  | typeError (msg : String)
  | attributeError (missing : String)
  | keyError (key : String)
deriving DecidableEq, Repr

/-- Evaluate a fallible function on every element of a list, stopping at the
first raised exception (the behaviour of consuming Python's `map` — or a
pool's map — over a function that may raise). -/
def exceptMapAll (f : α → Except PyExc β) : List α → Except PyExc (List β)
  | [] => .ok []
  | a :: l =>
    match f a with
    | .error e => .error e
    | .ok b =>
      match exceptMapAll f l with
      | .error e => .error e
      | .ok bs => .ok (b :: bs)

/-- Calling a Python function as `f(**kwargs)`: a TypeError is raised when a
required parameter is missing or an unexpected keyword is supplied; otherwise
the implementation runs on the arguments completed with the defaults of the
optional parameters that were not supplied. -/
def pyCall (f : PyFunc α) (kwargs : List (String × Rat)) : Except PyExc α :=
  if !(f.required.all (fun r => kwargs.any (fun p => p.1 == r))) then
    .error (.typeError "missing a required keyword argument")
  else if !(kwargs.all (fun p => (f.required ++ f.defaults.map Prod.fst).contains p.1)) then
    .error (.typeError "got an unexpected keyword argument")
  else
    .ok (f.impl (kwargs ++ f.defaults.filter (fun d => !(kwargs.any (fun p => p.1 == d.1)))))

/-- Uncertainty variable (class UncVar): a generator function of the
uncertainty parameters together with the scipy distributions of those
parameters (`UncVar.__init__` stores `distr_dict` and `unc_var`). -/
structure UncVar (α : Type) where
  unc_var : PyFunc α
  distr_dict : List (String × Distr)

/-- UncVar.__init__: `self.labels = list(distr_dict.keys())`. -/
def UncVar.labels (v : UncVar α) : List String :=
  v.distr_dict.map Prod.fst

/-- UncVar.eval_unc_var: `return self.unc_var(**kwargs)` — the generator is
called directly on the given keyword arguments; no validation of the keys
against `self.labels` is performed by this method. -/
def UncVar.eval_unc_var (v : UncVar α) (kwargs : List (String × Rat)) : Except PyExc α :=
  pyCall v.unc_var kwargs

/-- Python dict single-key assignment `d[k] = v` on an insertion-ordered
association list: overwrite in place when the key is present, append at the
end otherwise. -/
def dictInsert (d : List (String × β)) (k : String) (v : β) : List (String × β) :=
  if d.any (fun p => p.1 == k) then
    d.map (fun p => if p.1 == k then (k, v) else p)
  else
    d ++ [(k, v)]

/-- Python `d1.update(d2)`: insert the items of `d2` one by one. -/
def dictUpdate (d1 d2 : List (String × β)) : List (String × β) :=
  d2.foldl (fun acc p => dictInsert acc p.1 p.2) d1

/-- Modelled from the spec: an exposure set is an opaque domain object
(climada.entity.Exposures is not among the analysed sources). -/
structure Exposures where
  data : Rat
deriving DecidableEq, Repr

/-- Modelled from the spec: an impact-function set is an opaque domain object
(climada.entity.ImpactFuncSet is not among the analysed sources). -/
structure ImpactFuncSet where
  data : Rat
deriving DecidableEq, Repr

/-- Modelled from the spec: a hazard event set is an opaque domain object
(climada.hazard.Hazard is not among the analysed sources). -/
structure Hazard where
  data : Rat
deriving DecidableEq, Repr

/-- The two shapes of argument UncImpact.__init__ accepts for each role; the
source distinguishes them with an isinstance check against the domain class. -/
inductive RoleInput (α : Type) where
  | fixed (obj : α)
  | uvar (v : UncVar α)

/-- One role branch of UncImpact.__init__: a concrete domain object is
wrapped as `UncVar(unc_var=lambda: obj, distr_dict=dict())` (a zero-argument
generator returning the object, with no distributions); an UncVar is stored
unchanged. -/
def wrapRole : RoleInput α → UncVar α
  | .fixed obj =>
      { unc_var := { required := [], defaults := [], impl := fun _ => obj }
        distr_dict := [] }
  | .uvar v => v

/-- A pathos process pool, reduced to its worker count. -/
structure Pool where
  ncpus : Nat
deriving DecidableEq, Repr

/-- Modelled from the external pool API (pathos ProcessPool.map, which
forwards its keyword arguments to multiprocessing `map(func, iterable,
chunksize=None)`): a keyword argument other than `chunksize` raises a
TypeError before any work is dispatched; otherwise the rows are mapped and
returned in submission order, and an exception raised while evaluating a row
propagates to the caller. -/
def Pool.map (_pool : Pool) (f : α → Except PyExc β) (l : List α)
    (kwargs : List (String × Nat)) : Except PyExc (List β) :=
  if !(kwargs.all (fun p => p.1 == "chunksize")) then
    .error (.typeError "map got an unexpected keyword argument")
  else
    exceptMapAll f l

/-- The SALib problem descriptor built by _make_uniform_base_sample. -/
structure Problem where
  num_vars : Nat
  names : List String
  bounds : List (List Rat)
deriving DecidableEq, Repr

instance : Inhabited Problem := ⟨⟨0, [], []⟩⟩

/-- Modelled from the spec: the result of the external impact computation
(climada.engine.Impact after `imp.calc`, not among the analysed sources): the
aggregated annual impact `aai_agg`, the frequency curve
`imp.calc_freq_curve(rp).impact` as a function of the requested return
periods, the per-exposure vector `eai_exp` and the per-event vector
`at_event`. -/
structure ImpactObj where
  aai_agg : Rat
  freq_curve : List Int → List Rat
  eai_exp : List Rat
  at_event : List Rat

/-- One row of the parameter sample table, as produced by
`pd.DataFrame.iterrows()`: an insertion-ordered mapping from parameter label
to sampled value. -/
abbrev Row := List (String × Rat)

/-- The metrics extracted from one sample row by _map_impact_eval:
`[imp.aai_agg, rp_curve, eai_exp, at_event]`, the last two being None when
their computation was not requested. -/
structure RowMetrics where
  aai_agg : Rat
  rp_curve : List Rat
  eai_exp : Option (List Rat)
  at_event : Option (List Rat)
deriving DecidableEq

/-- The three role variables held in `self.unc_vars` under the fixed keys
`exp`, `impf` and `haz`. -/
structure RoleVars where
  exp : UncVar Exposures
  impf : UncVar ImpactFuncSet
  haz : UncVar Hazard

/-- The attribute state of an UncImpact object. `aai_agg`, `rp`,
`calc_eai_exp` and `calc_at_event` are `Option`s because UncImpact.__init__
does not create those attributes (it creates `self.aai`, `self.freq_curve`,
`self.eai_exp`, `self.at_event`); they only come into existence when
calc_impact_distribution assigns them, and reading them before that raises an
AttributeError. -/
structure UncImpactState where
  pool : Option Pool
  unc_vars : RoleVars
  params : List Row
  problem : Problem
  aai : List Rat
  aai_agg : Option (List Rat)
  freq_curve : List (List Rat)
  eai_exp : List (List Rat)
  at_event : List (List Rat)
  rp : Option (List Int)
  calc_eai_exp : Option Bool
  calc_at_event : Option Bool

/-- UncImpact.__init__: store the pool, normalize the three role inputs with
`wrapRole`, and initialize `params`, `problem`, `aai`, `freq_curve`,
`eai_exp` and `at_event` to empty tables. Note the misnamed attribute: the
source sets `self.aai = pd.DataFrame()` while every reader uses
`self.aai_agg`, so `aai_agg` starts absent (`none`). -/
def uncImpactInit (exp_unc : RoleInput Exposures) (impf_unc : RoleInput ImpactFuncSet)
    (haz_unc : RoleInput Hazard) (pool : Option Pool) : UncImpactState :=
  { pool := pool
    unc_vars := ⟨wrapRole exp_unc, wrapRole impf_unc, wrapRole haz_unc⟩
    params := []
    problem := default
    aai := []
    aai_agg := none
    freq_curve := []
    eai_exp := []
    at_event := []
    rp := none
    calc_eai_exp := none
    calc_at_event := none }

/-- Uncertainty.distr_dict: an empty dict updated in turn with the
distr_dict of each uncertainty variable, in the insertion order of
`self.unc_vars` (exp, impf, haz). -/
def UncImpactState.distr_dict (st : UncImpactState) : List (String × Distr) :=
  dictUpdate (dictUpdate (dictUpdate [] st.unc_vars.exp.distr_dict)
      st.unc_vars.impf.distr_dict)
    st.unc_vars.haz.distr_dict

/-- Uncertainty.param_labels: `list(self.distr_dict.keys())`. -/
def UncImpactState.param_labels (st : UncImpactState) : List String :=
  st.distr_dict.map Prod.fst

/-- `param_sample[1][labels].to_dict()`: select the named entries of a sample
row, in label order; a label absent from the row raises a KeyError. -/
def sliceRow (labels : List String) (row : Row) : Except PyExc Row :=
  exceptMapAll
    (fun l =>
      match row.lookup l with
      | some x => .ok (l, x)
      | none => .error (.keyError l))
    labels

/-- UncImpact._map_impact_eval for one sample row: slice the row by each
role variable's labels, evaluate the three generators, run the external
impact computation `imp.calc(exposures=exp, impact_funcs=impf, hazard=haz)`,
and extract `[imp.aai_agg, imp.calc_freq_curve(rp).impact, eai_exp?,
at_event?]`. The return periods and the two toggles are the attributes
`self.rp`, `self.calc_eai_exp`, `self.calc_at_event` that
calc_impact_distribution assigns just before mapping; they are passed here as
arguments. -/
def mapImpactEval (impCalc : Exposures → ImpactFuncSet → Hazard → ImpactObj)
    (st : UncImpactState) (rp : List Int) (ce ca : Bool) (row : Row) :
    Except PyExc RowMetrics := do
  let exp_params ← sliceRow st.unc_vars.exp.labels row
  let haz_params ← sliceRow st.unc_vars.haz.labels row
  let impf_params ← sliceRow st.unc_vars.impf.labels row
  let e ← st.unc_vars.exp.eval_unc_var exp_params
  let h ← st.unc_vars.haz.eval_unc_var haz_params
  let f ← st.unc_vars.impf.eval_unc_var impf_params
  let imp := impCalc e f h
  let rp_curve := imp.freq_curve rp
  let eai := if ce then some imp.eai_exp else none
  let atev := if ca then some imp.at_event else none
  return ⟨imp.aai_agg, rp_curve, eai, atev⟩

/-- UncImpact.calc_impact_distribution: default the return periods, record
`rp` and the two toggles on the state, map _map_impact_eval over the sample
rows — through `pool.map(_map_impact_eval, self.params.iterrows(),
chunsize=...)` when a pool is present (the keyword is spelled `chunsize` in
the source, line 437, although the local variable computed on line 434 is
named `chunksize`), plainly sequentially otherwise — then unpack the list of
per-row metric quadruples (`zip(*impact_metrics)` raises when the sample is
empty) and store the metric tables; `eai_exp` and `at_event` are only
(re)assigned when their computation was requested. -/
def calcImpactDistribution (impCalc : Exposures → ImpactFuncSet → Hazard → ImpactObj)
    (st : UncImpactState) (rpArg : Option (List Int)) (ce ca : Bool) :
    Except PyExc UncImpactState :=
  let rp := rpArg.getD [5, 10, 20, 50, 100, 250]
  let run : Except PyExc (List RowMetrics) :=
    match st.pool with
    | some pool =>
      let chunksize := min (st.params.length / pool.ncpus) 100
      pool.map (mapImpactEval impCalc st rp ce ca) st.params [("chunsize", chunksize)]
    | none => exceptMapAll (mapImpactEval impCalc st rp ce ca) st.params
  match run with
  | .error e => .error e
  | .ok ms =>
    if ms.isEmpty then
      .error (.valueError "not enough values to unpack")
    else
      .ok { st with
        rp := some rp
        calc_eai_exp := some ce
        calc_at_event := some ca
        aai_agg := some (ms.map RowMetrics.aai_agg)
        freq_curve := ms.map RowMetrics.rp_curve
        eai_exp := if ce then ms.map (fun m => m.eai_exp.getD []) else st.eai_exp
        at_event := if ca then ms.map (fun m => m.at_event.getD []) else st.at_event }

/-- Keyword options forwarded to the SALib sampling method. -/
abbrev SamplerOpts := List (String × Rat)

/-- The SALib sampling-method interface used by _make_uniform_base_sample:
`salib_sampling_method.sample(problem=problem, N=self.n_samples, **kwargs)`,
a pure function returning a matrix on the unit hypercube. -/
abbrev Sampler := Problem → Nat → SamplerOpts → List (List Rat)

/-- The problem descriptor of _make_uniform_base_sample:
`{num_vars: len(labels), names: labels, bounds: [[0, 1]] * len(labels)}`. -/
def mkProblem (labels : List String) : Problem :=
  ⟨labels.length, labels, List.replicate labels.length [0, 1]⟩

/-- `self.distr_dict[param]`: look a distribution up by label. -/
def distrOf (dd : List (String × Distr)) (l : String) : Distr :=
  (dd.lookup l).getD default

/-- Uncertainty.make_sample: obtain the uniform base sample from the chosen
SALib method on the unit-hypercube problem over `param_labels`, build the
DataFrame with `columns=self.param_labels`, and apply each parameter's
`distr_dict[param].ppf` elementwise to its column. The table is represented
row-major, each row carrying the (label, value) pairs in column order. -/
def makeSampleTable (sampler : Sampler) (dd : List (String × Distr)) (N : Nat)
    (opts : SamplerOpts) : List Row :=
  let labels := dd.map Prod.fst
  let base := sampler (mkProblem labels) N opts
  base.map (fun r => (labels.zip r).map (fun p => (p.1, (distrOf dd p.1).ppf p.2)))

/-- Uncertainty.make_sample as a state update: sets `self.problem` (through
_make_uniform_base_sample) and `self.params`. -/
def UncImpactState.make_sample (st : UncImpactState) (sampler : Sampler) (N : Nat)
    (opts : SamplerOpts) : UncImpactState :=
  { st with
    problem := mkProblem st.param_labels
    params := makeSampleTable sampler st.distr_dict N opts }

/-- The mapping returned by a SALib analysis call: sensitivity-index name to
value (a vector of values per parameter is flattened away; only the stored
numbers matter to the claims). -/
abbrev SensOut := List (String × Rat)

/-- The SALib analysis-method interface used by _calc_metric_sensitivity:
`analysis_method.analyze(self.problem, Y, **kwargs)` with the keyword options
already fixed. -/
abbrev AnalysisMethod := Problem → List Rat → SensOut

/-- Uncertainty._calc_metric_sensitivity: for every column of the metric
table (given column-major with its column names), run the analysis method on
the column's values in row order and store the returned index mapping under
the column name, via `sensitivity_dict.update({metric: sensitivity_index})`
on an initially empty dict. -/
def calcMetricSensitivity (analysisMethod : AnalysisMethod) (problem : Problem)
    (df_metric : List (String × List Rat)) : List (String × SensOut) :=
  df_metric.foldl (fun acc p => dictInsert acc p.1 (analysisMethod problem p.2)) []

/-- The exact message of the ValueError raised by calc_impact_sensitivity
when `self.params` is empty. -/
def missingSampleMsg : String :=
  "I found no samples. Please produce first samples using Uncertainty.make_sample()."

/-- The exact message of the ValueError raised by calc_impact_sensitivity
when `self.aai_agg` exists but is empty. -/
def missingMetricsMsg : String :=
  "I found no impact data. Please compute the impact distribution first using Uncertainty.calc_impact_distribution()"

/-- Substring test: `pat` occurs contiguously in `s`. -/
def strContains (s pat : String) : Bool :=
  let sl := s.toList
  let pl := pat.toList
  (List.range (sl.length + 1)).any (fun i => (sl.drop i).take pl.length == pl)

/-- The named frequency-curve columns `['rp' + str(n) for n in rp]` of the
table stored by calc_impact_distribution, rebuilt column-major for the
sensitivity pass (the stored table is row-major here). -/
def freqCurveCols (st : UncImpactState) : List (String × List Rat) :=
  match st.rp with
  | some rp =>
    (List.range rp.length).map
      (fun j => ("rp" ++ toString (rp.getD j 0), st.freq_curve.map (fun r => r.getD j 0)))
  | none => []

/-- Column-major view of a positionally-indexed metric table
(`pd.DataFrame(list_of_vectors)` has integer column names 0..w-1). -/
def vectorCols (t : List (List Rat)) : List (String × List Rat) :=
  (List.range (t.headD []).length).map
    (fun j => (toString j, t.map (fun r => r.getD j 0)))

/-- pandas `DataFrame.empty` on a row-major table of uniform width: true
when either axis has length 0 — no rows, or rows with no columns (as for a
sample over zero uncertain parameters). -/
def dfEmpty (t : List Row) : Bool :=
  t.isEmpty || (t.headD []).isEmpty

/-- UncImpact.calc_impact_sensitivity: raise the missing-sample ValueError
when the `self.params` DataFrame is empty (either axis of length 0); then
read `self.aai_agg`, which raises an AttributeError when
calc_impact_distribution has not assigned it (the constructor only creates
`self.aai`); raise the missing-metrics ValueError when it exists but is
empty (this one always has its single `aai_agg` column, so row emptiness
suffices); otherwise union the per-column sensitivity dictionaries of
`aai_agg`, `freq_curve` and, when their toggles (attributes that likewise
only exist after calc_impact_distribution) are set, `eai_exp` and
`at_event`. -/
def calcImpactSensitivity (analysisMethod : AnalysisMethod) (st : UncImpactState) :
    Except PyExc (List (String × SensOut)) :=
  if dfEmpty st.params then
    .error (.valueError missingSampleMsg)
  else
    match st.aai_agg with
    | none => .error (.attributeError "aai_agg")
    | some aaiT =>
      if aaiT.isEmpty then
        .error (.valueError missingMetricsMsg)
      else
        let s1 := dictUpdate []
          (calcMetricSensitivity analysisMethod st.problem [("aai_agg", aaiT)])
        let s2 := dictUpdate s1
          (calcMetricSensitivity analysisMethod st.problem (freqCurveCols st))
        match st.calc_eai_exp, st.calc_at_event with
        | some ce, some ca =>
          let s3 := if ce then
              dictUpdate s2
                (calcMetricSensitivity analysisMethod st.problem (vectorCols st.eai_exp))
            else s2
          let s4 := if ca then
              dictUpdate s3
                (calcMetricSensitivity analysisMethod st.problem (vectorCols st.at_event))
            else s3
          .ok s4
        | _, _ => .error (.attributeError "calc_eai_exp")

/-- The attribute state of a base Uncertainty object; `unc_vars = none`
models the attribute not having been set at all. -/
structure UncBase (α : Type) where
  unc_vars : Option (List (String × α))
  pool : Option Pool
  params : List Row
  problem : Problem

/-- Uncertainty.__init__ of the base class: `if unc_vars: self.unc_vars = {}`
— when the argument is truthy (a non-empty mapping) the attribute is set to a
fresh empty dict, discarding the argument; when the argument is omitted
(None) or an empty mapping it is falsy and the attribute is never created.
`self.params` and `self.problem` are initialized empty. -/
def uncertaintyInit (uv : Option (List (String × α))) (pool : Option Pool) : UncBase α :=
  { unc_vars :=
      match uv with
      | some l => if l.isEmpty then none else some []
      | none => none
    pool := pool
    params := []
    problem := default }

/-- Uncertainty.distr_dict evaluated on a base object: folds dict.update over
`self.unc_vars.values()`; `none` when the attribute does not exist. -/
def baseDistrDict (dd : α → List (String × Distr)) (st : UncBase α) :
    Option (List (String × Distr)) :=
  st.unc_vars.map (fun l => l.foldl (fun acc p => dictUpdate acc (dd p.2)) [])

/-- Uncertainty.param_labels evaluated on a base object. -/
def baseParamLabels (dd : α → List (String × Distr)) (st : UncBase α) :
    Option (List String) :=
  (baseDistrDict dd st).map (fun d => d.map Prod.fst)

/-- Discount rates container (climada/entity/disc_rates/base.py): the years
and the rate of each year. The source-data `tag` is carried by an external
Tag class and is irrelevant to the appended numeric data. -/
structure DiscRates where
  years : List Int
  rates : List Rat
deriving DecidableEq, Repr

/-- `np.where(year == self.years)[0]` followed by taking `found[0]`: the
first index at which the array holds `year`, if any. -/
def firstIdx (ys : List Int) (y : Int) : Option Nat :=
  match ys with
  | [] => none
  | z :: zs => if z = y then some 0 else (firstIdx zs y).map (· + 1)

/-- The loop body of DiscRates.append over `zip(disc_rates.years,
disc_rates.rates)`: the accumulator carries `self.rates` (mutated in place
when the year is already present) and the `new_year`/`new_rate` arrays
(appended to when it is not). -/
def appendStep (selfYears : List Int) (acc : List Rat × List Int × List Rat)
    (p : Int × Rat) : List Rat × List Int × List Rat :=
  match firstIdx selfYears p.1 with
  | some i => (acc.1.set i p.2, acc.2.1, acc.2.2)
  | none => (acc.1, acc.2.1 ++ [p.1], acc.2.2 ++ [p.2])

/-- DiscRates.append: `disc_rates.check()` raises a ValueError when the
argument's years and rates disagree in length; an empty receiver is entirely
replaced by the argument; otherwise every year of the argument either
overwrites the rate at its first index in `self.years` or is collected, with
its rate, into the `new_year`/`new_rate` arrays, which are finally appended
to `self.years`/`self.rates`. -/
def DiscRates.append (self d : DiscRates) : Except PyExc DiscRates :=
  if d.years.length ≠ d.rates.length then
    .error (.valueError "Invalid DiscRates.rates row size.")
  else if self.years.isEmpty then
    .ok d
  else
    let res := (d.years.zip d.rates).foldl (appendStep self.years) (self.rates, [], [])
    .ok { years := self.years ++ res.2.1, rates := res.1 ++ res.2.2 }

/-- The rates component of the DiscRates.append loop in isolation: fold the
in-place overwrites over the argument's (year, rate) pairs. -/
def rateFold (Y : List Int) (rs : List Rat) (l : List (Int × Rat)) : List Rat :=
  l.foldl
    (fun rs p =>
      match firstIdx Y p.1 with
      | some i => rs.set i p.2
      | none => rs)
    rs

/-! Concrete fixtures used by the witnesses and counterexamples below. -/

/-- A trivial distribution (identity quantile function). -/
def distrW : Distr := ⟨fun x => x⟩

/-- A generator whose single parameter `x` is optional, with default value 5
(as in the source docstring example `imp_fun_tc(..., _id=1)`, a generator may
give defaults to parameters). -/
def genC4 : PyFunc Rat :=
  { required := [], defaults := [("x", 5)], impl := fun env => (env.lookup "x").getD 0 }

/-- An UncVar declaring the parameter `x` over `genC4`. -/
def vC4 : UncVar Rat := ⟨genC4, [("x", distrW)]⟩

/-- The same generator with an empty distribution dictionary. -/
def vC4b : UncVar Rat := ⟨genC4, []⟩

/-- A constant analysis method. -/
def aW : AnalysisMethod := fun _ _ => [("S1", 0)]

/-- An UncImpact freshly constructed from three concrete domain objects. -/
def stInitW : UncImpactState :=
  uncImpactInit (.fixed ⟨1⟩) (.fixed ⟨2⟩) (.fixed ⟨3⟩) none

/-- A sampling method producing one run of the (here empty) parameter list. -/
def samplerW0 : Sampler := fun _ _ _ => [[]]

/-- `stInitW` after make_sample: one sample row, no uncertain parameter. -/
def stSampledW : UncImpactState := stInitW.make_sample samplerW0 1 []

/-- A deterministic impact computation echoing the exposure value. -/
def impCalcW : Exposures → ImpactFuncSet → Hazard → ImpactObj :=
  fun e _ _ => ⟨e.data, fun rps => rps.map (fun _ => 0), [7], [8]⟩

/-- `stSampledW` with a one-worker process pool attached. -/
def stPoolW : UncImpactState := { stSampledW with pool := some ⟨1⟩ }

/-- An uncertainty variable for the exposures role with one required
parameter `x`. -/
def vExpP : UncVar Exposures :=
  ⟨{ required := ["x"], defaults := [],
     impl := fun env => ⟨(env.lookup "x").getD 0⟩ }, [("x", distrW)]⟩

/-- An UncImpact with one uncertain exposure parameter; the other two roles
are fixed objects. -/
def stInitP : UncImpactState :=
  uncImpactInit (.uvar vExpP) (.fixed ⟨2⟩) (.fixed ⟨3⟩) none

/-- A sampling method returning one unit-hypercube row for one parameter. -/
def samplerW1 : Sampler := fun _ _ _ => [[0]]

/-- `stInitP` after make_sample: a one-row, one-column sample table, so the
params DataFrame is non-empty on both axes. -/
def stSampledP : UncImpactState := stInitP.make_sample samplerW1 1 []

/-- The state produced by running calc_impact_distribution sequentially on
`stSampledW` with `impCalcW` and the default return periods. -/
def stDistW : UncImpactState :=
  { stSampledW with
    rp := some [5, 10, 20, 50, 100, 250]
    calc_eai_exp := some false
    calc_at_event := some false
    aai_agg := some [1]
    freq_curve := [[0, 0, 0, 0, 0, 0]] }

/-- Two named parameters with distinct quantile functions. -/
def ddW : List (String × Distr) := [("a", ⟨fun x => x + 1⟩), ("b", ⟨fun x => 2 * x⟩)]

/-- A sampling method returning a single unit-hypercube row. -/
def samplerW2 : Sampler := fun _ _ _ => [[0, 1/2]]

/-- An empty problem descriptor. -/
def prW : Problem := ⟨0, [], []⟩

/-- An analysis method returning a (slightly) negative first-order index, as
a decomposition method may on poor convergence. -/
def aNeg : AnalysisMethod := fun _ _ => [("S1", -1)]

/-- A one-column metric table. -/
def dfW : List (String × List Rat) := [("aai_agg", [1, 2, 3])]

/-- A discount-rate container for years 2000 and 2001. -/
def drSelf : DiscRates := ⟨[2000, 2001], [2, 2]⟩

/-- Discount rates to append: year 2001 collides, year 2002 is new. -/
def drD : DiscRates := ⟨[2001, 2002], [3, 4]⟩

/-- The container resulting from `drSelf.append drD`. -/
def drRes : DiscRates := ⟨[2000, 2001, 2002], [2, 3, 4]⟩

section Lemmas

theorem exceptMapAll_ok_spec {α β : Type} {f : α → Except PyExc β} :
    ∀ {l : List α} {bs : List β}, exceptMapAll f l = Except.ok bs →
      bs.length = l.length ∧
      ∀ i, i < l.length →
        ∃ a b, l[i]? = some a ∧ f a = Except.ok b ∧ bs[i]? = some b := by
  intro l
  induction l with
  | nil =>
    intro bs h
    simp only [exceptMapAll, Except.ok.injEq] at h
    subst h
    exact ⟨rfl, fun i hi => absurd hi (by simp)⟩
  | cons a l ih =>
    intro bs h
    simp only [exceptMapAll] at h
    cases hfa : f a with
    | error e => rw [hfa] at h; simp at h
    | ok b =>
      rw [hfa] at h
      cases hrest : exceptMapAll f l with
      | error e => rw [hrest] at h; simp at h
      | ok bs2 =>
        rw [hrest] at h
        simp only [Except.ok.injEq] at h
        subst h
        obtain ⟨hlen, hget⟩ := ih hrest
        refine ⟨by simp [hlen], ?_⟩
        intro i hi
        cases i with
        | zero => exact ⟨a, b, by simp, hfa, by simp⟩
        | succ j =>
          obtain ⟨a2, b2, h1, h2, h3⟩ := hget j (by simpa using hi)
          exact ⟨a2, b2, by simpa using h1, h2, by simpa using h3⟩

theorem pool_map_chunsize_error (pool : Pool) (f : α → Except PyExc β) (l : List α)
    (c : Nat) :
    pool.map f l [("chunsize", c)]
      = .error (.typeError "map got an unexpected keyword argument") := by
  have hc : ((("chunsize" : String) == "chunksize")) = false := by decide
  simp [Pool.map, List.all, hc]

theorem mapImpactEval_ok_toggles
    {impCalc : Exposures → ImpactFuncSet → Hazard → ImpactObj}
    {st : UncImpactState} {rp : List Int} {ce ca : Bool} {row : Row} {m : RowMetrics}
    (h : mapImpactEval impCalc st rp ce ca row = .ok m) :
    (ce = true → ∃ v, m.eai_exp = some v) ∧
    (ca = true → ∃ v, m.at_event = some v) := by
  simp only [mapImpactEval, bind, Except.bind, pure, Except.pure] at h
  repeat' split at h
  all_goals first
    | (simp_all; done)
    | (injection h with h; subst h;
       refine ⟨fun hc => ?_, fun hc => ?_⟩ <;> simp_all)

theorem lookup_of_getElem_nodup :
    ∀ (dd : List (String × Distr)) (p : Nat) (ld : String × Distr),
      (dd.map Prod.fst).Nodup → dd[p]? = some ld → dd.lookup ld.1 = some ld.2 := by
  intro dd
  induction dd with
  | nil => intro p ld _ h; simp at h
  | cons a t ih =>
    intro p ld hnd h
    cases p with
    | zero =>
      simp only [List.getElem?_cons_zero, Option.some.injEq] at h
      subst h
      simp [List.lookup]
    | succ q =>
      simp only [List.getElem?_cons_succ] at h
      have hmem : ld ∈ t := List.getElem?_mem h
      have hne : ld.1 ≠ a.1 := by
        intro hcontra
        have : a.1 ∈ t.map Prod.fst := hcontra ▸ List.mem_map_of_mem Prod.fst hmem
        simp only [List.map_cons, List.nodup_cons] at hnd
        exact hnd.1 this
      have hbeq : (ld.1 == a.1) = false := beq_eq_false_iff_ne.mpr hne
      simp only [List.lookup, hbeq]
      exact ih q ld (by simp only [List.map_cons, List.nodup_cons] at hnd; exact hnd.2) h

theorem dictInsert_absent (acc : List (String × β)) (k : String) (v : β)
    (h : acc.any (fun q => q.1 == k) = false) : dictInsert acc k v = acc ++ [(k, v)] := by
  simp [dictInsert, h]

theorem foldl_dictInsert_append (g : String × List Rat → SensOut) :
    ∀ (df : List (String × List Rat)) (acc : List (String × SensOut)),
      (df.map Prod.fst).Nodup →
      (∀ p ∈ df, acc.any (fun q => q.1 == p.1) = false) →
      df.foldl (fun acc p => dictInsert acc p.1 (g p)) acc
        = acc ++ df.map (fun p => (p.1, g p)) := by
  intro df
  induction df with
  | nil => intro acc _ _; simp
  | cons p t ih =>
    intro acc hnd hdisj
    have h1 : acc.any (fun q => q.1 == p.1) = false := hdisj p (by simp)
    have hndt : (t.map Prod.fst).Nodup := by
      simp only [List.map_cons, List.nodup_cons] at hnd; exact hnd.2
    have hhead : p.1 ∉ t.map Prod.fst := by
      simp only [List.map_cons, List.nodup_cons] at hnd; exact hnd.1
    rw [List.foldl_cons]
    show t.foldl (fun acc p => dictInsert acc p.1 (g p)) (dictInsert acc p.1 (g p))
      = acc ++ (p :: t).map (fun p => (p.1, g p))
    rw [dictInsert_absent acc p.1 (g p) h1]
    rw [ih (acc ++ [(p.1, g p)]) hndt ?_]
    · simp
    · intro q hq
      have hq1 : acc.any (fun r => r.1 == q.1) = false := hdisj q (by simp [hq])
      have hne : (p.1 == q.1) = false := by
        refine beq_eq_false_iff_ne.mpr ?_
        intro hcontra
        exact hhead (hcontra ▸ List.mem_map_of_mem Prod.fst hq)
      simp [List.any_append, hq1, hne]

theorem lookup_map_of_mem (g : String × List Rat → SensOut) :
    ∀ (df : List (String × List Rat)) (m : String) (Y : List Rat),
      (df.map Prod.fst).Nodup → (m, Y) ∈ df →
      (df.map (fun p => (p.1, g p))).lookup m = some (g (m, Y)) := by
  intro df
  induction df with
  | nil => intro m Y _ hm; simp at hm
  | cons p t ih =>
    intro m Y hnd hm
    rcases List.mem_cons.mp hm with hhd | htl
    · subst hhd
      simp [List.lookup]
    · have hne : (m == p.1) = false := by
        refine beq_eq_false_iff_ne.mpr ?_
        intro hcontra
        simp only [List.map_cons, List.nodup_cons] at hnd
        exact hnd.1 (hcontra ▸ List.mem_map_of_mem Prod.fst htl)
      simp only [List.map_cons, List.lookup, hne]
      exact ih m Y (by simp only [List.map_cons, List.nodup_cons] at hnd; exact hnd.2) htl

theorem firstIdx_eq_none_iff (ys : List Int) (y : Int) :
    firstIdx ys y = none ↔ y ∉ ys := by
  induction ys with
  | nil => simp [firstIdx]
  | cons z zs ih =>
    by_cases hz : z = y
    · subst hz
      simp [firstIdx]
    · simp [firstIdx, hz, Option.map_eq_none', ih, Ne.symm hz]

theorem firstIdx_getElem :
    ∀ (ys : List Int) (y : Int) (i : Nat), firstIdx ys y = some i → ys[i]? = some y := by
  intro ys
  induction ys with
  | nil => intro y i h; simp [firstIdx] at h
  | cons z zs ih =>
    intro y i h
    simp only [firstIdx] at h
    split at h
    · rename_i hz
      injection h with h
      subst h
      simp [hz]
    · rw [Option.map_eq_some'] at h
      obtain ⟨j, hj, hi⟩ := h
      subst hi
      simpa using ih y j hj

theorem firstIdx_lt_length (ys : List Int) (y : Int) (i : Nat)
    (h : firstIdx ys y = some i) : i < ys.length := by
  by_contra hge
  have := List.getElem?_eq_none (Nat.le_of_not_lt hge)
  rw [firstIdx_getElem ys y i h] at this
  simp at this

theorem firstIdx_inj (ys : List Int) (y₁ y₂ : Int) (i : Nat)
    (h₁ : firstIdx ys y₁ = some i) (h₂ : firstIdx ys y₂ = some i) : y₁ = y₂ := by
  have e₁ := firstIdx_getElem ys y₁ i h₁
  have e₂ := firstIdx_getElem ys y₂ i h₂
  rw [e₁] at e₂
  exact (Option.some.injEq _ _ ▸ e₂)

theorem appendStep_foldl (Y : List Int) :
    ∀ (l : List (Int × Rat)) (rs : List Rat) (ny : List Int) (nr : List Rat),
      l.foldl (appendStep Y) (rs, ny, nr)
        = (rateFold Y rs l,
           ny ++ (l.filter (fun p => (firstIdx Y p.1).isNone)).map Prod.fst,
           nr ++ (l.filter (fun p => (firstIdx Y p.1).isNone)).map Prod.snd) := by
  intro l
  induction l with
  | nil => intro rs ny nr; simp [rateFold]
  | cons p t ih =>
    intro rs ny nr
    rw [List.foldl_cons]
    cases hfi : firstIdx Y p.1 with
    | some i =>
      show t.foldl (appendStep Y) (appendStep Y (rs, ny, nr) p) = _
      rw [show appendStep Y (rs, ny, nr) p = (rs.set i p.2, ny, nr) by
        simp [appendStep, hfi]]
      rw [ih (rs.set i p.2) ny nr]
      simp [rateFold, List.filter_cons, hfi, List.foldl_cons]
    | none =>
      show t.foldl (appendStep Y) (appendStep Y (rs, ny, nr) p) = _
      rw [show appendStep Y (rs, ny, nr) p = (rs, ny ++ [p.1], nr ++ [p.2]) by
        simp [appendStep, hfi]]
      rw [ih rs (ny ++ [p.1]) (nr ++ [p.2])]
      simp [rateFold, List.filter_cons, hfi, List.foldl_cons]

theorem rateFold_length (Y : List Int) :
    ∀ (l : List (Int × Rat)) (rs : List Rat), (rateFold Y rs l).length = rs.length := by
  intro l
  induction l with
  | nil => intro rs; simp [rateFold]
  | cons p t ih =>
    intro rs
    simp only [rateFold, List.foldl_cons]
    cases hfi : firstIdx Y p.1 with
    | some i =>
      simp only [hfi]
      rw [show (List.foldl _ (rs.set i p.2) t) = rateFold Y (rs.set i p.2) t from rfl]
      rw [ih (rs.set i p.2)]
      simp
    | none =>
      simp only [hfi]
      exact ih rs

theorem rateFold_untouched (Y : List Int) (i : Nat) :
    ∀ (l : List (Int × Rat)) (rs : List Rat),
      (∀ p ∈ l, firstIdx Y p.1 ≠ some i) → (rateFold Y rs l)[i]? = rs[i]? := by
  intro l
  induction l with
  | nil => intro rs _; simp [rateFold]
  | cons p t ih =>
    intro rs hl
    simp only [rateFold, List.foldl_cons]
    cases hfi : firstIdx Y p.1 with
    | some j =>
      simp only [hfi]
      have hji : j ≠ i := by
        intro hcontra
        exact hl p (by simp) (hcontra ▸ hfi)
      rw [show (List.foldl _ (rs.set j p.2) t) = rateFold Y (rs.set j p.2) t from rfl]
      rw [ih (rs.set j p.2) (fun q hq => hl q (by simp [hq]))]
      exact List.getElem?_set_ne hji
    | none =>
      simp only [hfi]
      exact ih rs (fun q hq => hl q (by simp [hq]))

theorem rateFold_set_of_mem (Y : List Int) (l : List (Int × Rat)) (rs : List Rat)
    (hnd : (l.map Prod.fst).Nodup) (y : Int) (r : Rat) (i : Nat)
    (hm : (y, r) ∈ l) (hfi : firstIdx Y y = some i) (hi : i < rs.length) :
    (rateFold Y rs l)[i]? = some r := by
  obtain ⟨l₁, l₂, hsplit⟩ := List.append_of_mem hm
  subst hsplit
  have hy2 : y ∉ l₂.map Prod.fst := by
    simp only [List.map_append, List.map_cons] at hnd
    have := (List.nodup_append.mp hnd).2.1
    exact (List.nodup_cons.mp this).1
  rw [show rateFold Y rs (l₁ ++ (y, r) :: l₂)
      = rateFold Y (rateFold Y rs l₁) ((y, r) :: l₂) by simp [rateFold]]
  rw [show rateFold Y (rateFold Y rs l₁) ((y, r) :: l₂)
      = rateFold Y ((rateFold Y rs l₁).set i r) l₂ by
    simp [rateFold, List.foldl_cons, hfi]]
  rw [rateFold_untouched Y i l₂ ((rateFold Y rs l₁).set i r) ?_]
  · exact List.getElem?_set_self (by rw [rateFold_length]; exact hi)
  · intro q hq hcontra
    have : q.1 = y := firstIdx_inj Y q.1 y i hcontra hfi
    exact hy2 (this ▸ List.mem_map_of_mem Prod.fst hq)

theorem filter_zip_map_fst (q : Int → Bool) :
    ∀ (ys : List Int) (rs : List Rat), ys.length = rs.length →
      ((ys.zip rs).filter (fun p => q p.1)).map Prod.fst = ys.filter q := by
  intro ys
  induction ys with
  | nil => intro rs _; simp
  | cons y t ih =>
    intro rs hlen
    cases rs with
    | nil => simp at hlen
    | cons r rt =>
      simp only [List.zip_cons_cons, List.filter_cons]
      cases hq : q y <;> simp [hq, ih rt (by simpa using hlen)]

end Lemmas

/-- Claim C6: a concrete domain object passed to UncImpact.__init__ in place
of an uncertainty variable is wrapped into a zero-parameter UncVar with an
empty distribution mapping whose evaluation with the empty parameter
assignment returns that fixed object, and a fixed role input contributes no
labels to the parameter space (param_labels is empty when every role is
fixed); an UncVar passed for a role is stored unchanged. -/
theorem unc_impact_init_constant_wrapping
    (eo : Exposures) (io : ImpactFuncSet) (ho : Hazard)
    (ev : UncVar Exposures) (iv : UncVar ImpactFuncSet) (hv : UncVar Hazard)
    (pool : Option Pool) :
    ((uncImpactInit (.fixed eo) (.fixed io) (.fixed ho) pool).unc_vars.exp.labels = []
      ∧ (uncImpactInit (.fixed eo) (.fixed io) (.fixed ho)
          pool).unc_vars.exp.eval_unc_var [] = .ok eo)
    ∧ ((uncImpactInit (.fixed eo) (.fixed io) (.fixed ho) pool).unc_vars.impf.labels = []
      ∧ (uncImpactInit (.fixed eo) (.fixed io) (.fixed ho)
          pool).unc_vars.impf.eval_unc_var [] = .ok io)
    ∧ ((uncImpactInit (.fixed eo) (.fixed io) (.fixed ho) pool).unc_vars.haz.labels = []
      ∧ (uncImpactInit (.fixed eo) (.fixed io) (.fixed ho)
          pool).unc_vars.haz.eval_unc_var [] = .ok ho)
    ∧ (uncImpactInit (.fixed eo) (.fixed io) (.fixed ho) pool).param_labels = []
    ∧ (uncImpactInit (.uvar ev) (.uvar iv) (.uvar hv) pool).unc_vars = ⟨ev, iv, hv⟩ :=
  ⟨⟨rfl, rfl⟩, ⟨rfl, rfl⟩, ⟨rfl, rfl⟩, rfl, rfl⟩

/-- Claim C4, counterexample: eval_unc_var does not fail on a parameter-value
mapping whose key set differs from the declared parameter names. `vC4`
declares the parameter name `x`, the empty mapping supplies no key at all,
yet evaluation succeeds (the generator's default fills the gap): no
InvalidParameterSet-style failure occurs. -/
theorem eval_unc_var_accepts_mismatched_keys :
    vC4.labels = ["x"]
    ∧ ([] : Row).map Prod.fst ≠ vC4.labels
    ∧ vC4.eval_unc_var [] = .ok 5 :=
  ⟨rfl, by simp [vC4, UncVar.labels, distrW], rfl⟩

/-- Claim C4 (amended): eval_unc_var performs no validation of the mapping
against the declared parameter names — it is exactly the direct application
of the wrapped generator to the given named values, so its outcome depends
only on the generator (two variables with the same generator but different
declared distributions evaluate identically); a mismatched key set fails
only if the generator's own signature rejects it (a TypeError from the
call), never with a dedicated InvalidParameterSet check. -/
theorem eval_unc_var_applies_generator {α : Type} (v w : UncVar α)
    (kwargs : List (String × Rat)) (h : v.unc_var = w.unc_var) :
    v.eval_unc_var kwargs = pyCall v.unc_var kwargs
    ∧ v.eval_unc_var kwargs = w.eval_unc_var kwargs := by
  refine ⟨rfl, ?_⟩
  simp [UncVar.eval_unc_var, h]

/-- Witness for the amended C4 theorem at a concrete input: `vC4` and `vC4b`
share the generator but declare different parameter names; evaluation on the
same mapping agrees. -/
theorem eval_unc_var_applies_generator_witness :
    vC4.eval_unc_var [] = pyCall vC4.unc_var []
    ∧ vC4.eval_unc_var [] = vC4b.eval_unc_var [] :=
  eval_unc_var_applies_generator vC4 vC4b [] rfl

/-- Claim C9: the base Uncertainty constructor, given a non-empty unc_vars
mapping, sets the attribute to a fresh empty dict — the passed variables are
discarded, so distr_dict and param_labels come out empty — and, given None
(the default) or an empty mapping, never creates the attribute at all. -/
theorem uncertainty_init_discards_unc_vars {α : Type} (l : List (String × α))
    (pool : Option Pool) (dd : α → List (String × Distr)) (h : l ≠ []) :
    (uncertaintyInit (some l) pool).unc_vars = some []
    ∧ baseDistrDict dd (uncertaintyInit (some l) pool) = some []
    ∧ baseParamLabels dd (uncertaintyInit (some l) pool) = some []
    ∧ (uncertaintyInit (none : Option (List (String × α))) pool).unc_vars = none
    ∧ (uncertaintyInit (some ([] : List (String × α))) pool).unc_vars = none := by
  have hl : l.isEmpty = false := by
    cases l with
    | nil => exact absurd rfl h
    | cons a t => rfl
  refine ⟨?_, ?_, ?_, rfl, rfl⟩ <;>
    simp [uncertaintyInit, baseDistrDict, baseParamLabels, hl]

/-- Witness for C9 at a concrete non-empty mapping. -/
theorem uncertainty_init_discards_unc_vars_witness :
    (uncertaintyInit (some [("exp", vC4)]) none).unc_vars = some []
    ∧ baseDistrDict UncVar.distr_dict (uncertaintyInit (some [("exp", vC4)]) none)
        = some []
    ∧ baseParamLabels UncVar.distr_dict (uncertaintyInit (some [("exp", vC4)]) none)
        = some []
    ∧ (uncertaintyInit (none : Option (List (String × UncVar Rat))) none).unc_vars = none
    ∧ (uncertaintyInit (some ([] : List (String × UncVar Rat))) none).unc_vars = none :=
  uncertainty_init_discards_unc_vars [("exp", vC4)] none UncVar.distr_dict (by simp)

/-- Claim C7: make_sample is deterministic — two calls with the same
uncertainty-variable distributions, the same sampling method, the same N and
the same options produce identical sample tables. -/
theorem make_sample_reproducible (s₁ s₂ : Sampler) (d₁ d₂ : List (String × Distr))
    (N₁ N₂ : Nat) (o₁ o₂ : SamplerOpts)
    (hs : s₁ = s₂) (hd : d₁ = d₂) (hN : N₁ = N₂) (ho : o₁ = o₂) :
    makeSampleTable s₁ d₁ N₁ o₁ = makeSampleTable s₂ d₂ N₂ o₂ := by
  subst hs; subst hd; subst hN; subst ho; rfl

/-- Witness for C7 at a concrete sampler and distribution dictionary. -/
theorem make_sample_reproducible_witness :
    makeSampleTable samplerW2 ddW 1 [] = makeSampleTable samplerW2 ddW 1 [] :=
  make_sample_reproducible samplerW2 samplerW2 ddW ddW 1 1 [] [] rfl rfl rfl rfl

/-- Claim C3 (code bug): invoked before any sample is built,
calc_impact_sensitivity does raise the ValueError whose message names
Uncertainty.make_sample(), as claimed; but invoked with a sample of at least
one uncertain parameter present (so the params DataFrame is non-empty on
both axes and the line-615 guard passes) and the impact distribution not yet
computed, it raises an AttributeError for the absent aai_agg attribute —
UncImpact.__init__ (line 379) initializes `self.aai` instead of
`self.aai_agg` — and never reaches the missing-metrics ValueError naming
calc_impact_distribution that the (unreachable) guard at line 619 would
raise. (A sample over zero uncertain parameters is empty along the column
axis and trips the missing-sample guard instead.) -/
theorem calc_impact_sensitivity_precondition_bug :
    calcImpactSensitivity aW stInitP = .error (.valueError missingSampleMsg)
    ∧ strContains missingSampleMsg "make_sample" = true
    ∧ calcImpactSensitivity aW stSampledP = .error (.attributeError "aai_agg")
    ∧ strContains missingMetricsMsg "calc_impact_distribution" = true :=
  ⟨rfl, by decide, rfl, by decide⟩

/-- Claim C5 (code bug): with a worker pool attached, calc_impact_distribution
does not reproduce the sequential result — it passes the misspelled keyword
`chunsize` (the local variable computed at line 434 is named `chunksize`) to
`pool.map`, whose signature accepts only `chunksize`, so the pooled branch
raises a TypeError while the sequential branch on the identical state
produces the metric tables. -/
theorem calc_impact_distribution_pool_chunsize_bug :
    calcImpactDistribution impCalcW stPoolW none false false
      = .error (.typeError "map got an unexpected keyword argument")
    ∧ calcImpactDistribution impCalcW stSampledW none false false = .ok stDistW :=
  ⟨rfl, rfl⟩

/-- Claim C1: whenever calc_impact_distribution completes on a sample of n
rows, every produced metric table (aai_agg, freq_curve and — when requested —
eai_exp and at_event) has exactly n rows, and its row i holds precisely the
metrics obtained by evaluating the impact computation (through
_map_impact_eval) on the parameter values of sample row i. -/
theorem calc_impact_distribution_row_alignment
    (impCalc : Exposures → ImpactFuncSet → Hazard → ImpactObj)
    (st st2 : UncImpactState) (rpArg : Option (List Int)) (ce ca : Bool)
    (hok : calcImpactDistribution impCalc st rpArg ce ca = .ok st2) :
    ∃ tbl, st2.aai_agg = some tbl
      ∧ tbl.length = st.params.length
      ∧ st2.freq_curve.length = st.params.length
      ∧ (ce = true → st2.eai_exp.length = st.params.length)
      ∧ (ca = true → st2.at_event.length = st.params.length)
      ∧ (∀ i, i < st.params.length →
          ∃ row m, st.params[i]? = some row
            ∧ mapImpactEval impCalc st (rpArg.getD [5, 10, 20, 50, 100, 250]) ce ca row
                = .ok m
            ∧ tbl[i]? = some m.aai_agg
            ∧ st2.freq_curve[i]? = some m.rp_curve
            ∧ (ce = true → ∃ v, m.eai_exp = some v ∧ st2.eai_exp[i]? = some v)
            ∧ (ca = true → ∃ v, m.at_event = some v ∧ st2.at_event[i]? = some v)) := by
  cases hpool : st.pool with
  | some pool =>
    simp [calcImpactDistribution, hpool, pool_map_chunsize_error] at hok
  | none =>
    simp only [calcImpactDistribution, hpool] at hok
    cases hrun : exceptMapAll
        (mapImpactEval impCalc st (rpArg.getD [5, 10, 20, 50, 100, 250]) ce ca)
        st.params with
    | error e => simp only [hrun] at hok; simp at hok
    | ok ms =>
      simp only [hrun] at hok
      cases hempty : ms.isEmpty with
      | true => simp [hempty] at hok
      | false =>
        simp only [hempty, Bool.false_eq_true, if_false] at hok
        injection hok with hok
        subst hok
        obtain ⟨hlen, hget⟩ := exceptMapAll_ok_spec hrun
        refine ⟨ms.map RowMetrics.aai_agg, rfl, by simp [hlen], by simp [hlen],
          ?_, ?_, ?_⟩
        · intro hce; simp [hce, hlen]
        · intro hca; simp [hca, hlen]
        · intro i hi
          obtain ⟨row, m, h1, h2, h3⟩ := hget i hi
          refine ⟨row, m, h1, h2, ?_, ?_, ?_, ?_⟩
          · simp [List.getElem?_map, h3]
          · simp [List.getElem?_map, h3]
          · intro hce
            obtain ⟨v, hv⟩ := (mapImpactEval_ok_toggles h2).1 hce
            exact ⟨v, hv, by simp [hce, List.getElem?_map, h3, hv]⟩
          · intro hca
            obtain ⟨v, hv⟩ := (mapImpactEval_ok_toggles h2).2 hca
            exact ⟨v, hv, by simp [hca, List.getElem?_map, h3, hv]⟩

/-- Witness for C1: the sequential run on the concrete one-row sample. -/
theorem calc_impact_distribution_row_alignment_witness :
    ∃ tbl, stDistW.aai_agg = some tbl
      ∧ tbl.length = stSampledW.params.length
      ∧ stDistW.freq_curve.length = stSampledW.params.length
      ∧ (false = true → stDistW.eai_exp.length = stSampledW.params.length)
      ∧ (false = true → stDistW.at_event.length = stSampledW.params.length)
      ∧ (∀ i, i < stSampledW.params.length →
          ∃ row m, stSampledW.params[i]? = some row
            ∧ mapImpactEval impCalcW stSampledW
                ((none : Option (List Int)).getD [5, 10, 20, 50, 100, 250])
                false false row = .ok m
            ∧ tbl[i]? = some m.aai_agg
            ∧ stDistW.freq_curve[i]? = some m.rp_curve
            ∧ (false = true → ∃ v, m.eai_exp = some v ∧ stDistW.eai_exp[i]? = some v)
            ∧ (false = true → ∃ v, m.at_event = some v ∧ stDistW.at_event[i]? = some v)) :=
  calc_impact_distribution_row_alignment impCalcW stSampledW stDistW none false false rfl

/-- Claim C2: make_sample builds the parameter table from the matrix the
named design generator returns on the problem descriptor over the parameter
labels — as many table rows as matrix rows (n_runs), each row carrying
exactly the labels in declaration order, and entry (i, p) being the quantile
function of the p-th parameter's distribution applied to matrix entry
(i, p). (Repeated calls with the same inputs are bit-identical; that
determinism is the separate reproducibility theorem.) -/
theorem make_sample_shape_and_quantiles (sampler : Sampler) (dd : List (String × Distr))
    (N : Nat) (opts : SamplerOpts)
    (hnd : (dd.map Prod.fst).Nodup)
    (hw : ∀ row ∈ sampler (mkProblem (dd.map Prod.fst)) N opts, row.length = dd.length) :
    (makeSampleTable sampler dd N opts).length
        = (sampler (mkProblem (dd.map Prod.fst)) N opts).length
    ∧ (∀ r ∈ makeSampleTable sampler dd N opts, r.map Prod.fst = dd.map Prod.fst)
    ∧ (∀ (i p : Nat) (x : Rat),
        ((sampler (mkProblem (dd.map Prod.fst)) N opts)[i]?.bind (fun r => r[p]?))
            = some x →
        ∃ ld : String × Distr, dd[p]? = some ld
          ∧ ((makeSampleTable sampler dd N opts)[i]?.bind (fun r => r[p]?))
              = some (ld.1, ld.2.ppf x)) := by
  have htbl : makeSampleTable sampler dd N opts
      = (sampler (mkProblem (dd.map Prod.fst)) N opts).map
          (fun r => ((dd.map Prod.fst).zip r).map
            (fun p => (p.1, (distrOf dd p.1).ppf p.2))) := rfl
  refine ⟨by rw [htbl]; simp, ?_, ?_⟩
  · intro r hr
    rw [htbl] at hr
    obtain ⟨row, hrow, hreq⟩ := List.mem_map.mp hr
    subst hreq
    have hlenr : row.length = dd.length := hw row hrow
    rw [List.map_map]
    rw [show (Prod.fst ∘ fun p : String × Rat => (p.1, (distrOf dd p.1).ppf p.2))
        = Prod.fst from rfl]
    exact List.map_fst_zip _ _ (by simp [hlenr])
  · intro i p x hx
    cases hbase : (sampler (mkProblem (dd.map Prod.fst)) N opts)[i]? with
    | none => rw [hbase] at hx; simp at hx
    | some row =>
      rw [hbase] at hx
      simp only [Option.some_bind] at hx
      have hrow : row ∈ sampler (mkProblem (dd.map Prod.fst)) N opts :=
        List.getElem?_mem hbase
      have hlenr : row.length = dd.length := hw row hrow
      have hp : p < dd.length := by
        obtain ⟨hlt, _⟩ := List.getElem?_eq_some.mp hx
        rw [hlenr] at hlt
        exact hlt
      refine ⟨dd[p], List.getElem?_eq_some.mpr ⟨hp, rfl⟩, ?_⟩
      rw [htbl, List.getElem?_map, hbase]
      simp only [Option.map_some', Option.some_bind]
      rw [List.getElem?_map]
      have hzip : ((dd.map Prod.fst).zip row)[p]? = some ((dd[p]).1, x) := by
        refine List.getElem?_zip_eq_some.mpr ⟨?_, hx⟩
        rw [List.getElem?_map, List.getElem?_eq_some.mpr ⟨hp, rfl⟩]
        rfl
      rw [hzip]
      have hdl : distrOf dd (dd[p]).1 = (dd[p]).2 := by
        unfold distrOf
        rw [lookup_of_getElem_nodup dd p dd[p] hnd (List.getElem?_eq_some.mpr ⟨hp, rfl⟩)]
        rfl
      simp [hdl]

/-- Witness for C2 on a concrete two-parameter space and one-row design. -/
theorem make_sample_shape_and_quantiles_witness :
    (makeSampleTable samplerW2 ddW 1 []).length = 1 :=
  ((make_sample_shape_and_quantiles samplerW2 ddW 1 [] (by decide)
    (by decide)).1).trans (by decide)

/-- Claim C8: _calc_metric_sensitivity stores, under each metric column's
name, exactly the index mapping the analysis method returns on that column's
values in sample row order, unmodified — in particular a negative index
value returned by the analysis method is found unchanged in the result,
never clamped to zero. -/
theorem calc_metric_sensitivity_passthrough (analysisMethod : AnalysisMethod)
    (problem : Problem) (df : List (String × List Rat))
    (hnd : (df.map Prod.fst).Nodup) :
    (∀ m Y, (m, Y) ∈ df →
      (calcMetricSensitivity analysisMethod problem df).lookup m
        = some (analysisMethod problem Y))
    ∧ (∀ m Y s v, (m, Y) ∈ df → (analysisMethod problem Y).lookup s = some v →
        ∃ out, (calcMetricSensitivity analysisMethod problem df).lookup m = some out
          ∧ out.lookup s = some v) := by
  have hfold : calcMetricSensitivity analysisMethod problem df
      = df.map (fun p => (p.1, analysisMethod problem p.2)) := by
    have := foldl_dictInsert_append (fun p => analysisMethod problem p.2) df [] hnd
      (by simp)
    simpa [calcMetricSensitivity] using this
  constructor
  · intro m Y hm
    rw [hfold]
    exact lookup_map_of_mem (fun p => analysisMethod problem p.2) df m Y hnd hm
  · intro m Y s v hm hv
    refine ⟨analysisMethod problem Y, ?_, hv⟩
    rw [hfold]
    exact lookup_map_of_mem (fun p => analysisMethod problem p.2) df m Y hnd hm

/-- Witness for C8: the analysis method returns a negative first-order index
and the stored result holds exactly that negative value. -/
theorem calc_metric_sensitivity_passthrough_witness :
    ∃ out, (calcMetricSensitivity aNeg prW dfW).lookup "aai_agg" = some out
      ∧ out.lookup "S1" = some (-1) :=
  (calc_metric_sensitivity_passthrough aNeg prW dfW (by decide)).2
    "aai_agg" [1, 2, 3] "S1" (-1) (by decide) (by decide)

/-- Claim C10: appending discount rates `d` (with equally long years and
rates) to a non-empty container overwrites in place the rate of every year
of `d` already present — the receiver's years stay unchanged in length and
order — and appends the remaining years of `d`, in `d`'s order, after the
existing years; hence when both years arrays are duplicate-free so is the
result. -/
theorem disc_rates_append_spec (self d res : DiscRates)
    (hne : self.years ≠ [])
    (hlen : d.years.length = d.rates.length)
    (hres : self.append d = .ok res) :
    res.years = self.years ++ d.years.filter (fun y => !(self.years.contains y))
    ∧ (self.years.Nodup → d.years.Nodup → res.years.Nodup)
    ∧ (self.rates.length = self.years.length → d.years.Nodup →
        ∀ y r i, (y, r) ∈ d.years.zip d.rates → firstIdx self.years y = some i →
          res.rates[i]? = some r) := by
  have hemp : self.years.isEmpty = false := by
    cases h : self.years with
    | nil => exact absurd h hne
    | cons a t => rfl
  simp only [DiscRates.append, hlen, ne_eq, not_true_eq_false, if_false, hemp,
    Bool.false_eq_true] at hres
  injection hres with hres
  subst hres
  rw [appendStep_foldl self.years (d.years.zip d.rates) self.rates [] []]
  have hpred : ∀ y, (firstIdx self.years y).isNone = !(self.years.contains y) := by
    intro y
    by_cases hy : y ∈ self.years
    · cases hfi : firstIdx self.years y with
      | none => exact absurd hy ((firstIdx_eq_none_iff _ _).mp hfi)
      | some i => simp [List.contains, List.elem_iff, hy]
    · have hfi : firstIdx self.years y = none := (firstIdx_eq_none_iff _ _).mpr hy
      simp [hfi, List.contains, List.elem_iff, hy]
  have hyears :
      ((d.years.zip d.rates).filter (fun p => (firstIdx self.years p.1).isNone)).map
          Prod.fst
        = d.years.filter (fun y => !(self.years.contains y)) := by
    rw [filter_zip_map_fst (fun y => (firstIdx self.years y).isNone) d.years d.rates hlen]
    exact List.filter_congr (fun y _ => hpred y)
  refine ⟨by simpa using hyears, ?_, ?_⟩
  · intro hS hD
    simp only []
    rw [show ([] ++ ((d.years.zip d.rates).filter
          (fun p => (firstIdx self.years p.1).isNone)).map Prod.fst)
        = d.years.filter (fun y => !(self.years.contains y)) by simpa using hyears]
    rw [List.nodup_append]
    refine ⟨hS, hD.filter _, ?_⟩
    intro a haS haF
    obtain ⟨_, hcon⟩ := List.mem_filter.mp haF
    simp only [Bool.not_eq_true'] at hcon
    rw [← List.elem_iff] at haS
    rw [show self.years.contains a = self.years.elem a from rfl] at hcon
    rw [hcon] at haS
    simp at haS
  · intro hrl hD y r i hm hfi
    have hi : i < self.rates.length := by
      rw [hrl]
      exact firstIdx_lt_length _ _ _ hfi
    have hznd : ((d.years.zip d.rates).map Prod.fst).Nodup := by
      rw [List.map_fst_zip _ _ (le_of_eq hlen)]
      exact hD
    have hmain := rateFold_set_of_mem self.years (d.years.zip d.rates) self.rates
      hznd y r i hm hfi hi
    simp only []
    rw [List.getElem?_append_left (by rw [rateFold_length]; exact hi)]
    exact hmain

/-- Witness for C10 on concrete containers: year 2001 of the argument
overwrites the receiver's rate in place, year 2002 is appended, and the
resulting years are duplicate-free. -/
theorem disc_rates_append_spec_witness :
    drRes.years = drSelf.years ++ drD.years.filter (fun y => !(drSelf.years.contains y))
    ∧ drRes.years.Nodup
    ∧ drRes.rates[1]? = some 3 := by
  have h := disc_rates_append_spec drSelf drD drRes (by decide) (by decide) rfl
  exact ⟨h.1, h.2.1 (by decide) (by decide),
    h.2.2 (by decide) (by decide) 2001 3 1 (by decide) (by decide)⟩

end Climada
